import Mathlib

/-
Verification of the dbwrkr-pg PostgreSQL storage adapter.

Shallow embedding of src/dbwrkr-postgresql.js and src/lib/utils.js.
Tables are modelled as Lean lists, SQL NULL as Option, timestamps as
integers (milliseconds), and each adapter operation as a pure function
from a store state to a result and a new store state.  String-building
code (query construction) is modelled at the string level where a claim
is about the produced SQL text and bound parameter values.
-/

namespace DbWrkrPG

/-- A row of the "wrkr_items" table.  Per the DDL (lib/setup.js) every
column except the serial primary key "id" is nullable: event_id integer,
queue_id integer, tid text, payload jsonb, parent integer, created
timestamptz, "when" timestamptz, done timestamptz, "retryCount" integer. -/
structure Item where
  id : Nat
  event_id : Option Nat := none
  queue_id : Option Nat := none
  tid : Option String := none
  payload : Option String := none
  parent : Option Int := none
  created : Option Int := none
  when : Option Int := none
  done : Option Int := none
  retryCount : Option Int := none
deriving DecidableEq, Repr

/-- A name table ("wrkr_events" / "wrkr_queues"): serial id primary key
plus a text name column.  nextId models the serial sequence (starts at 1). -/
structure NameTable where
  rows : List (Nat × String) := []
  nextId : Nat := 1
deriving DecidableEq, Repr

/-- The backing store: the four tables created by lib/check.js /
lib/setup.js, plus the serial sequence for wrkr_items ids. -/
structure Store where
  events : NameTable := {}
  queues : NameTable := {}
  subscriptions : List (Nat × Nat) := []
  items : List Item := []
  nextItemId : Nat := 1
deriving DecidableEq, Repr

/-- Row filter of the fetchNext CTE:
`WHERE "queue_id" = $1 AND "when" <= $2`.  SQL three-valued logic: a NULL
queue_id or NULL "when" makes the comparison non-true, so the row is not
selected. -/
def eligibleB (queueId : Nat) (now : Int) (it : Item) : Bool :=
  (it.queue_id == some queueId) &&
    (match it.when with
     | some w => decide (w ≤ now)
     | none => false)

/-- Comparison used by `ORDER BY created DESC`: PostgreSQL sorts NULLs
first under DESC, so a NULL created ranks above every non-NULL value.
`createdDescGE a b` means a sorts at-or-before b in that order. -/
def createdDescGE : Option Int → Option Int → Bool
  | none, _ => true
  | some _, none => false
  | some a, some b => decide (b ≤ a)

/-- `ORDER BY created DESC LIMIT 1`: one row that ranks at-or-before all
others (ties between equal created values are broken arbitrarily by the
database; the model keeps the earliest such row in table order). -/
def pickBest : List Item → Option Item
  | [] => none
  | it :: rest =>
    match pickBest rest with
    | none => some it
    | some b => if createdDescGE it.created b.created then some it else some b

/-- `SET "when" = NULL, "done" = $2` where $2 is the same `new Date()`
that bounded the selection. -/
def claimItem (now : Int) (it : Item) : Item :=
  { it with when := none, done := some now }

/-- The fetchNext statement (src/dbwrkr-postgresql.js lines 216-230):

WITH itemId AS (SELECT id FROM wrkr_items WHERE "queue_id" = $1 AND
"when" <= $2 ORDER BY created DESC LIMIT 1)
UPDATE wrkr_items SET "when" = NULL, "done" = $2 FROM itemId
WHERE wrkr_items.id = itemId.id RETURNING *;

The callback maps an empty result set to `done(null, undefined)`
(returned here as `none`) and otherwise hands rows[0] to fieldMapper. -/
def fetchNextQuery (s : Store) (queueId : Nat) (now : Int) : Option Item × Store :=
  match pickBest (s.items.filter (eligibleB queueId now)) with
  | none => (none, s)
  | some it =>
    (some (claimItem now it),
     { s with items := s.items.map (fun j => if j.id == it.id then claimItem now j else j) })

/-- Resolver category, the `type` argument of getId / getName. -/
inductive Kind
  | event
  | queue
deriving DecidableEq, Repr

/-- The four per-instance memo objects of the adapter: memorizedEventIds,
memorizedQueueIds, memorizedEventNames, memorizedQueueNames.  JS objects
map string (or coerced) keys to values; getName can assign `undefined` as
a value, so name-memo values are Option String. -/
structure Memo where
  eventIds : List (String × Nat) := []
  queueIds : List (String × Nat) := []
  eventNames : List (Nat × Option String) := []
  queueNames : List (Nat × Option String) := []
deriving DecidableEq, Repr

/-- JS object property read: the most recent assignment wins. -/
def assocLookup {α β : Type} [BEq α] (l : List (α × β)) (k : α) : Option β :=
  (l.find? (fun p => p.1 == k)).map (fun p => p.2)

/-- The id-direction memo object selected by
`type === 'event' ? 'memorizedEventIds' : 'memorizedQueueIds'`. -/
def memoIds (m : Memo) : Kind → List (String × Nat)
  | .event => m.eventIds
  | .queue => m.queueIds

/-- The name-direction memo object selected by
`type === 'event' ? 'memorizedEventNames' : 'memorizedQueueNames'`. -/
def memoNames (m : Memo) : Kind → List (Nat × Option String)
  | .event => m.eventNames
  | .queue => m.queueNames

/-- getId cache population: `self[memorizedIdObject][name] = eventId;
self[memorizedNameObject][eventId] = name;` (both directions). -/
def memoizeId (m : Memo) (kind : Kind) (name : String) (i : Nat) : Memo :=
  match kind with
  | .event => { m with eventIds := (name, i) :: m.eventIds,
                       eventNames := (i, some name) :: m.eventNames }
  | .queue => { m with queueIds := (name, i) :: m.queueIds,
                       queueNames := (i, some name) :: m.queueNames }

/-- getName cache population after the id-only projection:
`this[memorizedNameObject][id] = resultName` stores `undefined`, and
`this[memorizedIdObject][resultName] = id` assigns under the key obtained
by coercing `undefined` to the string "undefined". -/
def memoizeNameUndef (m : Memo) (kind : Kind) (i : Nat) : Memo :=
  match kind with
  | .event => { m with eventNames := (i, none) :: m.eventNames,
                       eventIds := ("undefined", i) :: m.eventIds }
  | .queue => { m with queueNames := (i, none) :: m.queueNames,
                       queueIds := ("undefined", i) :: m.queueIds }

/-- JS truthiness of a possibly-undefined string value: `undefined` and
the empty string are falsy. -/
def strTruthy : Option String → Bool
  | none => false
  | some s => s ≠ ""

/-- The name table addressed by a resolver kind
(wrkr_events or wrkr_queues). -/
def kindTable (s : Store) : Kind → NameTable
  | .event => s.events
  | .queue => s.queues

/-- Store update of the name table addressed by a resolver kind. -/
def setKindTable (s : Store) (kind : Kind) (t : NameTable) : Store :=
  match kind with
  | .event => { s with events := t }
  | .queue => { s with queues := t }

/-- `SELECT id FROM t WHERE name = $1 LIMIT 1` (first matching row; the
name column carries no unique constraint, so the model takes the first in
table order). -/
def lookupIdByName (t : NameTable) (n : String) : Option Nat :=
  (t.rows.find? (fun r => r.2 == n)).map (fun r => r.1)

/-- Row lookup by id (id is the serial primary key, hence unique). -/
def lookupNameById (t : NameTable) (i : Nat) : Option String :=
  (t.rows.find? (fun r => r.1 == i)).map (fun r => r.2)

/-- `INSERT INTO t ("name") VALUES ($1) RETURNING *`: appends a row with
the next serial id and returns it. -/
def insertName (t : NameTable) (n : String) : NameTable × Nat :=
  ({ rows := t.rows ++ [(t.nextId, n)], nextId := t.nextId + 1 }, t.nextId)

/-- The inner `getId(queries, name, cb)` loop of
DbWrkrPostgreSQL.prototype.getId: run the SELECT; if it returns a row,
memoize both directions and return the id; otherwise run the next query,
the INSERT ... RETURNING *, whose returned row is handled by the same
callback; 'noIdFound' would be reached only if the INSERT also returned
no rows. -/
def getIdQueryPath (s : Store) (m : Memo) (kind : Kind) (name : String) :
    Except String Nat × Store × Memo :=
  match lookupIdByName (kindTable s kind) name with
  | some i => (Except.ok i, s, memoizeId m kind name i)
  | none =>
    let ins := insertName (kindTable s kind) name
    (Except.ok ins.2, setKindTable s kind ins.1, memoizeId m kind name ins.2)

/-- DbWrkrPostgreSQL.prototype.getId (src/dbwrkr-postgresql.js lines
396-433).  The memo check `if (this[memorizedIdObject] &&
this[memorizedIdObject][name])` uses JS truthiness, so a cached id 0
would fall through (serial ids start at 1). -/
def getIdModel (s : Store) (m : Memo) (kind : Kind) (name : String) :
    Except String Nat × Store × Memo :=
  match assocLookup (memoIds m kind) name with
  | some v => if v == 0 then getIdQueryPath s m kind name else (Except.ok v, s, m)
  | none => getIdQueryPath s m kind name

/-- DbWrkrPostgreSQL.prototype.getName (src/dbwrkr-postgresql.js lines
438-459).  The query is `SELECT id FROM t WHERE id = $1 LIMIT 1`: it
projects only the id column, so `result.rows[0].name` is `undefined`
whenever a row exists (modelled as `none`), and reading `.name` of
`result.rows[0]` throws a TypeError when no row exists. -/
def getNameModel (s : Store) (m : Memo) (kind : Kind) (i : Nat) :
    Except String (Option String) × Memo :=
  match assocLookup (memoNames m kind) i with
  | some v =>
    if strTruthy v then (Except.ok v, m) else getNameQueryPath s m kind i
  | none => getNameQueryPath s m kind i
where
  getNameQueryPath (s : Store) (m : Memo) (kind : Kind) (i : Nat) :
      Except String (Option String) × Memo :=
    if (kindTable s kind).rows.any (fun r => r.1 == i) then
      (Except.ok none, memoizeNameUndef m kind i)
    else
      (Except.error "TypeError", m)

/-- DbWrkrPostgreSQL.prototype.subscriptions (src/dbwrkr-postgresql.js
lines 126-158): resolve the event id with getId, then
`SELECT su.event_id, qu.name FROM wrkr_subscriptions AS su LEFT JOIN
wrkr_queues AS qu ON su.queue_id=qu.id WHERE event_id = $1`; the reduce
pushes each row's name (NULL when the LEFT JOIN found no queue row). -/
def subscriptionsModel (s : Store) (m : Memo) (eventName : String) :
    Except String (List (Option String)) × Store × Memo :=
  match getIdModel s m .event eventName with
  | (Except.error e, s2, m2) => (Except.error e, s2, m2)
  | (Except.ok eventId, s2, m2) =>
    let rows := s2.subscriptions.filter (fun p => p.1 == eventId)
    (Except.ok (rows.map (fun p => lookupNameById s2.queues p.2)), s2, m2)

/-- Success test for a resolver result. -/
def isOkB {α : Type} (r : Except String α) : Bool :=
  match r with
  | Except.ok _ => true
  | Except.error _ => false

/-- Claim C6 as stated, at one input: a name with no row makes getId fail
(surfacing NotFound), and the lookup leaves the backing store unchanged. -/
def C6claimAt (s : Store) (m : Memo) (kind : Kind) (name : String) : Prop :=
  isOkB (getIdModel s m kind name).1 = false ∧
  (getIdModel s m kind name).2.1 = s

/-- Concrete store for the getName theorem: queue 1 is named "q1". -/
def storeQ : Store := { queues := { rows := [(1, "q1")], nextId := 2 } }

/-- Concrete store for the subscriptions theorem: event 1 ("ev") feeds
queue 3 ("qa"). -/
def storeSub : Store :=
  { events := { rows := [(1, "ev")], nextId := 2 },
    queues := { rows := [(3, "qa")], nextId := 4 },
    subscriptions := [(1, 3)] }

/-- A work-item draft as handed to publish (the WorkItem record shape of
the dbwrkr core).  Timestamps are carried as their timestamp value; the
query layer transports them as ISO strings and payloads as JSON, an
encoding that is faithful for the columns they land in. -/
structure Draft where
  name : String
  queue : String
  tid : Option String := none
  payload : Option String := none
  parent : Option Int := none
  created : Option Int := none
  when : Option Int := none
  retryCount : Option Int := none
deriving DecidableEq, Repr

/-- One VALUES tuple of the publish INSERT
(utils.convertEventToQuery): event_id and queue_id come from the scalar
subselects `(SELECT id FROM "wrkr_events" WHERE name=$k)` and
`(SELECT id FROM "wrkr_queues" WHERE name=$k+1)`, which yield NULL when
the name has no row; nothing is inserted into the name tables. -/
def draftToItem (s : Store) (iid : Nat) (d : Draft) : Item :=
  { id := iid,
    event_id := lookupIdByName s.events d.name,
    queue_id := lookupIdByName s.queues d.queue,
    tid := d.tid,
    payload := d.payload,
    parent := d.parent,
    created := d.created,
    when := d.when,
    done := none,
    retryCount := d.retryCount }

/-- Rows produced by the single multi-VALUES INSERT, ids drawn from the
serial sequence in input order. -/
def insertedRows (s : Store) (iid : Nat) : List Draft → List Item
  | [] => []
  | d :: ds => draftToItem s iid d :: insertedRows s (iid + 1) ds

/-- The id strings publish returns: `result.rows.map(o => o.id.toString())`,
one consecutive serial id per draft, in input order. -/
def generatedIds (iid : Nat) : List Draft → List String
  | [] => []
  | _ :: ds => toString iid :: generatedIds (iid + 1) ds

/-- The publish result callback (src/dbwrkr-postgresql.js lines 185-195):
`if (publishEvents.length !== result.rowCount) return
done(new Error('insertErrorNotEnoughEvents'))`, otherwise the ids of the
returned rows in row order. -/
def publishHandle (nEvents : Nat) (rows : List Item) : Except String (List String) :=
  if nEvents ≠ rows.length then Except.error "insertErrorNotEnoughEvents"
  else Except.ok (rows.map (fun r => toString r.id))

/-- DbWrkrPostgreSQL.prototype.publish (lines 166-196) for an array
argument: build the single INSERT from the drafts, run it, then apply the
row-count check to the returned rows. -/
def publishModel (s : Store) (drafts : List Draft) : Except String (List String) × Store :=
  let rows := insertedRows s s.nextItemId drafts
  (publishHandle drafts.length rows,
   { s with items := s.items ++ rows, nextItemId := s.nextItemId + drafts.length })

/-- Claim C3 as stated, at one input: publish resolves **or creates** the
event and queue ids, so after it runs every draft's event and queue name
is bound in the store. -/
def C3claimAt (s : Store) (drafts : List Draft) : Prop :=
  ∀ d ∈ drafts,
    (lookupIdByName (publishModel s drafts).2.events d.name).isSome = true ∧
    (lookupIdByName (publishModel s drafts).2.queues d.queue).isSome = true

/-- Concrete draft naming an event and a queue that do not exist yet. -/
def draftE : Draft := { name := "e", queue := "q" }

/-- The record built by fieldMapper, the shape every WorkItem returned by
fetchNext and find goes through. -/
structure MappedItem where
  id : Nat
  name : Option String
  tid : Option String
  parent : Option Int
  payload : Option String
  queue : Option String
  created : Option Int
  when : Option Int
  done : Option Int
  retryCount : Int
deriving DecidableEq, Repr

/-- fieldMapper (src/dbwrkr-postgresql.js lines 468-492), given the two
getName results.  JS truthiness drives the mapping:
`item.tid ? item.tid : undefined` is undefined for NULL and for the empty
string; `item.parent ? item.parent : undefined` is undefined for NULL and
for 0; Date objects are always truthy, so `item.when || undefined` and
`item.done || undefined` are undefined exactly for NULL; and
`item.retryCount || 0` maps NULL (and 0) to 0. -/
def fieldMapper (item : Item) (eventName queueName : Option String) : MappedItem :=
  { id := item.id,
    name := eventName,
    tid := match item.tid with
      | some t => if t = "" then none else some t
      | none => none,
    parent := match item.parent with
      | some p => if p = 0 then none else some p
      | none => none,
    payload := item.payload,
    queue := queueName,
    created := item.created,
    when := item.when,
    done := item.done,
    retryCount := match item.retryCount with
      | some n => if n = 0 then 0 else n
      | none => 0 }

/-- Concrete claimed item (when NULL, done set) for the fieldMapper
witness. -/
def itemClaimed : Item := { id := 7, done := some 5 }

/-- Concrete pending item used to witness the fetchNext theorem. -/
def itemA : Item := { id := 1, queue_id := some 5, created := some 10, when := some 50 }

/-- Second concrete pending item, created later than itemA. -/
def itemB : Item := { id := 2, queue_id := some 5, created := some 20, when := some 60 }

/-- Concrete store with two pending items on queue 5. -/
def storeW : Store := { items := [itemA, itemB], nextItemId := 3 }

/-- Result object of createWhereSQL.  For empty criteria the source
returns `{query: '', values: [], counter}` — the key is `query`, not
`text` — so a caller reading `.text` gets `undefined`, modelled as
`none`; the non-empty branch returns a `text` key. -/
structure WhereSQL where
  text : Option String
  values : List String
  counter : Nat
deriving DecidableEq, Repr

/-- utils.createWhereSQL (lib/utils.js lines 57-78): reduce the criteria
object to `WHERE "k1" = $c AND "k2" = $c+1 ...` with positional bound
values (both call sites start the placeholder counter at 1, where the
`values[valueCounter - 1] = value` writes coincide with appending). -/
def createWhereSQL (criteria : List (String × String)) (counter : Nat) : WhereSQL :=
  if criteria.isEmpty then
    { text := none, values := [], counter := counter }
  else
    let step := fun (acc : String × List String × Nat) (kv : String × String) =>
      let sep := if acc.2.2 ≠ counter then " AND " else ""
      (acc.1 ++ sep ++ "\"" ++ kv.1 ++ "\" = $" ++ toString acc.2.2,
       acc.2.1 ++ [kv.2], acc.2.2 + 1)
    let r := criteria.foldl step ("WHERE ", [], counter)
    { text := some r.1, values := r.2.1, counter := r.2.2 }

/-- JS string concatenation `a + b` where a may be `undefined`: JS
coerces the undefined operand to the string "undefined". -/
def jsConcat (a : Option String) (b : String) : String :=
  (match a with
   | some s => s
   | none => "undefined") ++ b

/-- `new Date(0, 0, 0)`: 31 December 1899 in process-local time — not
the epoch start.  The exact ISO rendering depends on the timezone; the
theorems use the value opaquely. -/
def newDate00ISO : String := "1899-12-31T00:00:00.000Z"

/-- find, lines 309-326: after criteria mapping, build the WHERE
fragment; when the criteria carry neither an `id` nor a `when` key, the
implicit "when" filter is appended to `whereSQL.text` (undefined for
empty criteria) and its bound value is pushed wrapped in literal single
quotes: `` `'${newDate.toISOString()}'` ``. -/
def findWhere (criteria : List (String × String)) : Option String × List String :=
  let w := createWhereSQL criteria 1
  if criteria.any (fun kv => kv.1 == "id") || criteria.any (fun kv => kv.1 == "when") then
    (w.text, w.values)
  else
    let t1 := if criteria.isEmpty then jsConcat w.text " WHERE " else jsConcat w.text " AND "
    (some (t1 ++ "\"when\" > $" ++ toString w.counter ++ " "),
     w.values ++ ["\x27" ++ newDate00ISO ++ "\x27"])

/-- The final SELECT text of find (template literal of lines 323-326,
whitespace normalized). -/
def findQueryText (criteria : List (String × String)) : String :=
  "SELECT * FROM \"wrkr_items\" " ++ jsConcat (findWhere criteria).1 ""

/-- The id criterion of find: a single value or a list of values. -/
inductive IdCriterion
  | single (n : Nat)
  | list (ns : List Nat)
deriving DecidableEq, Repr

/-- find's id handling (lines 254-277): a list of more than one id takes
the dedicated branch `SELECT * FROM "wrkr_items" WHERE id in ($1)` whose
ONE bound parameter is the comma-joined ids wrapped in literal single
quotes (`criteria.id.join(',')` then `` [`'${ids}'`] ``); any other list
is collapsed to its first element (`_.first`) and treated as a single id
on the regular createWhereSQL equality path. -/
def findIdDispatch : IdCriterion → (String × List String) ⊕ Option Nat
  | .single n => Sum.inr (some n)
  | .list ns =>
    if ns.length > 1 then
      Sum.inl ("SELECT * FROM \"wrkr_items\" WHERE id in ($1)",
               ["\x27" ++ String.intercalate "," (ns.map toString) ++ "\x27"])
    else Sum.inr ns.head?

/-- A JavaScript value, as far as the query-building code inspects it.
Dates are carried by their ISO rendering. -/
inductive JSVal where
  | undefined
  | null
  | bool (b : Bool)
  | num (n : Int)
  | str (s : String)
  | date (iso : String)
  | obj (fields : List (String × JSVal))
  | arr (elems : List JSVal)

/-- JS property read `v.k`: an own field of an object, `undefined`
otherwise (the inspected keys are not prototype properties of strings,
arrays or dates). -/
def getField : JSVal → String → JSVal
  | .obj fields, k =>
    match fields.find? (fun p => p.1 == k) with
    | some p => p.2
    | none => .undefined
  | _, _ => .undefined

/-- JS truthiness. -/
def truthy : JSVal → Bool
  | .undefined => false
  | .null => false
  | .bool b => b
  | .num n => n != 0
  | .str s => s != ""
  | .date _ => true
  | .obj _ => true
  | .arr _ => true

/-- `v.toString()` for the values the code calls it on (parent ids:
numbers or strings).  The object/array renderings are approximate and
unreachable from the claims' inputs. -/
def jsToString : JSVal → String
  | .undefined => "undefined"
  | .null => "null"
  | .bool b => cond b "true" "false"
  | .num n => toString n
  | .str s => s
  | .date iso => iso
  | .obj _ => "[object Object]"
  | .arr _ => ""

/-- Date.prototype.toISOString.  On a non-Date JS throws; the call sites
guard with truthiness and only ever pass dates, so the fallback is
unreachable there. -/
def toISOStringJS : JSVal → JSVal
  | .date iso => .str iso
  | _ => .undefined

mutual
/-- JSON.stringify, structurally (string escaping and the omission of
undefined-valued properties are elided; payload serialization is
incidental to every claim). -/
def jsonStringify : JSVal → String
  | .undefined => "null"
  | .null => "null"
  | .bool b => cond b "true" "false"
  | .num n => toString n
  | .str s => "\"" ++ s ++ "\""
  | .date iso => "\"" ++ iso ++ "\""
  | .obj fields => "\x7b" ++ jsonStringifyFields fields ++ "\x7d"
  | .arr elems => "[" ++ jsonStringifyElems elems ++ "]"

/-- Serialize object fields. -/
def jsonStringifyFields : List (String × JSVal) → String
  | [] => ""
  | [p] => "\"" ++ p.1 ++ "\":" ++ jsonStringify p.2
  | p :: rest => "\"" ++ p.1 ++ "\":" ++ jsonStringify p.2 ++ "," ++ jsonStringifyFields rest

/-- Serialize array elements. -/
def jsonStringifyElems : List JSVal → String
  | [] => ""
  | [v] => jsonStringify v
  | v :: rest => jsonStringify v ++ "," ++ jsonStringifyElems rest
end

/-- utils.convertEventToQuery (lib/utils.js lines 39-48) over JS values:
one 8-column VALUES tuple (two scalar subselects plus six placeholders)
and the 8 bound values, returning the next placeholder counter. -/
def convertEventToQuery (event : JSVal) (counter : Nat) : String × List JSVal × Nat :=
  let payloadV := if truthy (getField event "payload")
    then JSVal.str (jsonStringify (getField event "payload")) else JSVal.null
  let createdV := if truthy (getField event "created")
    then toISOStringJS (getField event "created") else JSVal.null
  let whenV := if truthy (getField event "when")
    then toISOStringJS (getField event "when") else JSVal.null
  let parentV := if truthy (getField event "parent")
    then JSVal.str (jsToString (getField event "parent")) else JSVal.null
  let text := "( (SELECT id FROM \"wrkr_events\" WHERE name=$" ++ toString counter
    ++ "), (SELECT id FROM \"wrkr_queues\" WHERE name=$" ++ toString (counter + 1)
    ++ "), $" ++ toString (counter + 2) ++ ", $" ++ toString (counter + 3)
    ++ ", $" ++ toString (counter + 4) ++ ", $" ++ toString (counter + 5)
    ++ ", $" ++ toString (counter + 6) ++ ", $" ++ toString (counter + 7) ++ ")"
  (text, [getField event "name", getField event "queue", getField event "tid",
          payloadV, parentV, createdV, whenV, getField event "retryCount"],
   counter + 8)

/-- What `_.each` iterates: an array's elements, but a plain object's own
property VALUES (lodash collection iteration; the other cases the code
never passes). -/
def eachValues : JSVal → List JSVal
  | .arr elems => elems
  | .obj fields => fields.map (fun p => p.2)
  | _ => []

/-- utils.convertEventsToQuery (lib/utils.js lines 13-30): fold
convertEventToQuery over whatever `_.each` iterates on the raw argument,
comma-separating tuples (the counter is 1 exactly on the first pass). -/
def convertEventsToQuery (events : JSVal) : String × List JSVal :=
  let step := fun (acc : String × List JSVal × Nat) (e : JSVal) =>
    let r := convertEventToQuery e acc.2.2
    (acc.1 ++ (if acc.2.2 ≠ 1 then ", " else "") ++ r.1, acc.2.1 ++ r.2.1, r.2.2)
  let r := (eachValues events).foldl step ("", [], 1)
  (r.1, r.2.1)

/-- Claim C10 at one input: publish builds the same insert statement and
bound values for a draft object passed directly as for the one-element
array (publish normalizes `publishEvents` but hands the RAW `events`
argument to convertEventsToQuery). -/
def C10claimAt (e : JSVal) : Prop :=
  convertEventsToQuery e = convertEventsToQuery (JSVal.arr [e])

/-- Concrete draft object with a name and a queue. -/
def draftObj : JSVal := JSVal.obj [("name", JSVal.str "e"), ("queue", JSVal.str "q")]

/- ------------------------------------------------------------------ -/
/- Theorems                                                            -/
/- ------------------------------------------------------------------ -/

theorem createdDescGE_refl (a : Option Int) : createdDescGE a a = true := by
  cases a <;> simp [createdDescGE]

theorem createdDescGE_total (a b : Option Int) :
    createdDescGE a b = true ∨ createdDescGE b a = true := by
  cases a <;> cases b <;> (simp [createdDescGE]; try omega)

theorem createdDescGE_trans {a b c : Option Int}
    (hab : createdDescGE a b = true) (hbc : createdDescGE b c = true) :
    createdDescGE a c = true := by
  cases a <;> cases b <;> cases c <;> (simp_all [createdDescGE]; try omega)

theorem pickBest_eq_none_iff (l : List Item) : pickBest l = none ↔ l = [] := by
  cases l with
  | nil => simp [pickBest]
  | cons it rest =>
    simp only [pickBest]
    cases h : pickBest rest with
    | none => simp
    | some b =>
      constructor
      · intro hcontra
        by_cases hc : createdDescGE it.created b.created = true <;> simp [hc] at hcontra
      · intro hcontra
        exact absurd hcontra (List.cons_ne_nil _ _)

theorem pickBest_mem {l : List Item} : ∀ {it : Item}, pickBest l = some it → it ∈ l := by
  induction l with
  | nil => intro it h; simp [pickBest] at h
  | cons a rest ih =>
    intro it h
    rw [pickBest] at h
    cases hr : pickBest rest with
    | none =>
      rw [hr] at h
      simp at h
      simp [h]
    | some b =>
      rw [hr] at h
      by_cases hc : createdDescGE a.created b.created = true
      · simp [hc] at h
        simp [h]
      · simp [hc] at h
        exact List.mem_cons_of_mem _ (h ▸ ih hr)

theorem pickBest_max {l : List Item} : ∀ {it : Item}, pickBest l = some it →
    ∀ j ∈ l, createdDescGE it.created j.created = true := by
  induction l with
  | nil => intro it h; simp [pickBest] at h
  | cons a rest ih =>
    intro it h j hj
    rw [pickBest] at h
    cases hr : pickBest rest with
    | none =>
      rw [hr] at h
      have hrest : rest = [] := (pickBest_eq_none_iff rest).mp hr
      simp at h
      subst hrest
      simp at hj
      rw [hj, ← h]
      exact createdDescGE_refl _
    | some b =>
      rw [hr] at h
      rcases List.mem_cons.mp hj with hja | hjr
      · by_cases hc : createdDescGE a.created b.created = true
        · simp [hc] at h
          rw [hja, ← h]
          exact createdDescGE_refl _
        · simp [hc] at h
          rw [hja, ← h]
          rcases createdDescGE_total a.created b.created with h1 | h1
          · exact absurd h1 hc
          · exact h1
      · by_cases hc : createdDescGE a.created b.created = true
        · simp [hc] at h
          rw [← h]
          exact createdDescGE_trans hc (ih hr j hjr)
        · simp [hc] at h
          rw [← h]
          exact ih hr j hjr

/-- C1: for every queue, fetchNext selects at most one item of that queue
whose `when` is non-null and at most the current time, picking among the
eligible items one with the latest `created` timestamp; in the same single
statement it sets that item's `when` to null and its `done` to the current
time and returns the full (updated) row; rows with any other id are left
untouched; when no eligible item exists it returns none and leaves the
store unchanged, not an error.  Stated over stores in which every item
carries a `created` timestamp, as the data model guarantees (`created` is
set at insert); a NULL `created` would sort first under ORDER BY DESC. -/
theorem C1_fetchNext_claim (s : Store) (queueId : Nat) (now : Int)
    (hCreated : ∀ it ∈ s.items, it.created ≠ none) :
    ((s.items.filter (eligibleB queueId now) = [] →
        fetchNextQuery s queueId now = (none, s)) ∧
     ((fetchNextQuery s queueId now).1 = none →
        s.items.filter (eligibleB queueId now) = [])) ∧
    (∀ u, (fetchNextQuery s queueId now).1 = some u →
      u.when = none ∧ u.done = some now ∧
      ∃ it ∈ s.items, eligibleB queueId now it = true ∧ u = claimItem now it ∧
        it.created ≠ none ∧
        (∀ j ∈ s.items, eligibleB queueId now j = true →
          ∀ cj ∈ j.created, ∀ ci ∈ it.created, cj ≤ ci) ∧
        (fetchNextQuery s queueId now).2.items
          = s.items.map (fun j => if j.id == it.id then claimItem now j else j) ∧
        (∀ j ∈ s.items, j.id ≠ it.id → j ∈ (fetchNextQuery s queueId now).2.items)) := by
  constructor
  · constructor
    · intro hnil
      simp [fetchNextQuery, hnil, pickBest]
    · intro hnone
      rcases hp : pickBest (s.items.filter (eligibleB queueId now)) with _ | it
      · exact (pickBest_eq_none_iff _).mp hp
      · simp [fetchNextQuery, hp] at hnone
  · intro u hu
    rcases hp : pickBest (s.items.filter (eligibleB queueId now)) with _ | it
    · simp [fetchNextQuery, hp] at hu
    · simp [fetchNextQuery, hp] at hu
      have hmemf := pickBest_mem hp
      have hmax := pickBest_max hp
      rw [List.mem_filter] at hmemf
      refine ⟨by rw [← hu]; rfl, by rw [← hu]; rfl, it, hmemf.1, hmemf.2, hu.symm,
        hCreated it hmemf.1, ?_, ?_, ?_⟩
      · intro j hjmem hjelig cj hcj ci hci
        have hj : j ∈ s.items.filter (eligibleB queueId now) :=
          List.mem_filter.mpr ⟨hjmem, hjelig⟩
        have hge := hmax j hj
        rw [Option.mem_def] at hcj hci
        rw [hci, hcj] at hge
        simpa [createdDescGE] using hge
      · simp [fetchNextQuery, hp]
      · intro j hjmem hjid
        simp only [fetchNextQuery, hp]
        refine List.mem_map.mpr ⟨j, hjmem, ?_⟩
        rw [if_neg (by simp [hjid])]

/-- Witness for C1 at a concrete two-item store: both items are pending on
queue 5, and the claimed hypotheses hold by computation. -/
theorem C1_fetchNext_claim_witness :
    (∀ it ∈ storeW.items, it.created ≠ none) ∧
    (claimItem 100 itemB).when = none ∧ (claimItem 100 itemB).done = some 100 := by
  have h := C1_fetchNext_claim storeW 5 100 (by decide)
  have h2 := h.2 (claimItem 100 itemB) (by decide)
  exact ⟨by decide, h2.1, h2.2.1⟩

/-- C5: the claim says getName returns the bound name whether or not the
binding is memoized.  On the code it does not: the query projects only
the id column, so for queue id 1, bound to "q1" in the table but not
memoized, getName returns `undefined` (none), and the memo is populated
with an undefined name and an id entry keyed "undefined". -/
theorem C5_getName_bug :
    (getNameModel storeQ {} Kind.queue 1).1 = Except.ok none ∧
    lookupNameById storeQ.queues 1 = some "q1" ∧
    (getNameModel storeQ {} Kind.queue 1).2 =
      { queueNames := [(1, none)], queueIds := [("undefined", 1)] } := by
  exact ⟨rfl, rfl, rfl⟩

/-- C6 counterexample: with an empty events table, getId for the unknown
name "x" does not fail with NotFound and does not leave the backing store
unchanged — it inserts a row and returns the generated id. -/
theorem C6_counterexample : ¬ C6claimAt {} {} Kind.event "x" := by
  unfold C6claimAt
  decide

/-- C6 amended: getId is get-or-create.  On a memo miss it returns the
table id when the name exists (memoizing both directions, store
untouched); when the name does not exist it inserts a new row and returns
the generated id — the only lookup-path store mutation; on a truthy memo
hit it returns the cached id with store and memo untouched.  It never
fails with NotFound. -/
theorem C6_getId_amended (s : Store) (m : Memo) (kind : Kind) (name : String) :
    (∃ i, (getIdModel s m kind name).1 = Except.ok i) ∧
    (assocLookup (memoIds m kind) name = none →
      ((∀ i, lookupIdByName (kindTable s kind) name = some i →
          getIdModel s m kind name = (Except.ok i, s, memoizeId m kind name i)) ∧
       (lookupIdByName (kindTable s kind) name = none →
          getIdModel s m kind name =
            (Except.ok (kindTable s kind).nextId,
             setKindTable s kind (insertName (kindTable s kind) name).1,
             memoizeId m kind name (kindTable s kind).nextId)))) ∧
    (∀ v, assocLookup (memoIds m kind) name = some v → v ≠ 0 →
      getIdModel s m kind name = (Except.ok v, s, m)) := by
  refine ⟨?_, ?_, ?_⟩
  · unfold getIdModel getIdQueryPath
    cases hm : assocLookup (memoIds m kind) name with
    | some v =>
      by_cases hv : v == 0
      · simp [hv]
        cases hl : lookupIdByName (kindTable s kind) name <;> simp
      · simp [hv]
    | none =>
      cases hl : lookupIdByName (kindTable s kind) name <;> simp [hl]
  · intro hm
    constructor
    · intro i hl
      simp [getIdModel, hm, getIdQueryPath, hl]
    · intro hl
      simp [getIdModel, hm, getIdQueryPath, hl, insertName]
  · intro v hm hv
    simp [getIdModel, hm, hv]

/-- Witness for the amended C6 at a concrete input: the empty store has
no row for "x", and getId inserts one and returns id 1. -/
theorem C6_getId_amended_witness :
    assocLookup (memoIds ({} : Memo) Kind.event) "x" = none ∧
    lookupIdByName (kindTable ({} : Store) Kind.event) "x" = none ∧
    getIdModel {} {} Kind.event "x" =
      (Except.ok (kindTable ({} : Store) Kind.event).nextId,
       setKindTable {} Kind.event (insertName (kindTable ({} : Store) Kind.event) "x").1,
       memoizeId {} Kind.event "x" (kindTable ({} : Store) Kind.event).nextId) := by
  have h := C6_getId_amended {} {} Kind.event "x"
  exact ⟨by decide, by decide, (h.2.1 (by decide)).2 (by decide)⟩

/-- C8: for an event name with no row (and not cached), subscriptions
returns an empty list rather than an error, because getId creates a fresh
event id that no existing subscription references; for a known event it
returns the (left-joined) queue names of the subscriptions bound to it.
Hypotheses: subscription event ids stay below the events serial sequence
(the foreign-key invariant), and the session memo has no entry for the
name. -/
theorem C8_subscriptions_claim (s : Store) (m : Memo) (eventName : String)
    (hFresh : ∀ p ∈ s.subscriptions, p.1 < s.events.nextId)
    (hMemo : assocLookup m.eventIds eventName = none) :
    (lookupIdByName s.events eventName = none →
      (subscriptionsModel s m eventName).1 = Except.ok []) ∧
    (∀ eid, lookupIdByName s.events eventName = some eid →
      (subscriptionsModel s m eventName).1 =
        Except.ok ((s.subscriptions.filter (fun p => p.1 == eid)).map
          (fun p => lookupNameById s.queues p.2))) := by
  have hm : assocLookup (memoIds m Kind.event) eventName = none := hMemo
  constructor
  · intro hl
    have hid : getIdModel s m Kind.event eventName =
        (Except.ok s.events.nextId,
         setKindTable s Kind.event (insertName s.events eventName).1,
         memoizeId m Kind.event eventName s.events.nextId) := by
      simp [getIdModel, hm, getIdQueryPath, kindTable, hl, insertName]
    have hempty : ((setKindTable s Kind.event (insertName s.events eventName).1).subscriptions.filter
        (fun p => p.1 == s.events.nextId)) = [] := by
      rw [List.filter_eq_nil_iff]
      intro p hp
      have hlt := hFresh p (by simpa [setKindTable] using hp)
      simp
      omega
    simp [subscriptionsModel, hid, hempty]
  · intro eid hl
    have hid : getIdModel s m Kind.event eventName =
        (Except.ok eid, s, memoizeId m Kind.event eventName eid) := by
      simp [getIdModel, hm, getIdQueryPath, kindTable, hl]
    simp [subscriptionsModel, hid]

/-- Witness for C8: in storeSub, the unknown name "nope" yields an empty
list and the known name "ev" yields its one bound queue name "qa". -/
theorem C8_subscriptions_claim_witness :
    (∀ p ∈ storeSub.subscriptions, p.1 < storeSub.events.nextId) ∧
    (subscriptionsModel storeSub {} "nope").1 = Except.ok [] ∧
    (subscriptionsModel storeSub {} "ev").1 = Except.ok [some "qa"] := by
  have h1 := C8_subscriptions_claim storeSub {} "nope" (by decide) (by decide)
  have h2 := C8_subscriptions_claim storeSub {} "ev" (by decide) (by decide)
  refine ⟨by decide, h1.1 (by decide), ?_⟩
  rw [h2.2 1 (by decide)]
  rfl

theorem insertedRows_length (s : Store) (iid : Nat) (ds : List Draft) :
    (insertedRows s iid ds).length = ds.length := by
  induction ds generalizing iid with
  | nil => rfl
  | cons d ds ih => simp [insertedRows, ih]

theorem insertedRows_map_id (s : Store) (iid : Nat) (ds : List Draft) :
    (insertedRows s iid ds).map (fun r => toString r.id) = generatedIds iid ds := by
  induction ds generalizing iid with
  | nil => rfl
  | cons d ds ih => simp [insertedRows, generatedIds, draftToItem, ih]

/-- C3 counterexample: publishing a draft whose event name "e" and queue
name "q" have no rows does not create them — after publish the names are
still unbound, refuting "resolves or creates the event and queue ids". -/
theorem C3_counterexample : ¬ C3claimAt {} [draftE] := by
  unfold C3claimAt
  decide

/-- C3 amended: publish resolves the event and queue ids by subselects
against the existing name tables (a missing name yields a NULL reference
on the inserted row; nothing is created), inserts all items in one
statement, and returns exactly as many generated ids as items submitted,
in input order; whenever the store reports fewer rows than items
submitted, publish fails with the IncompleteInsert error
('insertErrorNotEnoughEvents') and returns no id list. -/
theorem C3_publish_amended (s : Store) (drafts : List Draft) :
    (publishModel s drafts).1 = Except.ok (generatedIds s.nextItemId drafts) ∧
    (publishModel s drafts).2.events = s.events ∧
    (publishModel s drafts).2.queues = s.queues ∧
    (publishModel s drafts).2.items = s.items ++ insertedRows s s.nextItemId drafts ∧
    (∀ iid d, lookupIdByName s.events d.name = none →
      (draftToItem s iid d).event_id = none) ∧
    (∀ n rows, n ≠ rows.length →
      publishHandle n rows = Except.error "insertErrorNotEnoughEvents") := by
  refine ⟨?_, rfl, rfl, rfl, ?_, ?_⟩
  · simp [publishModel, publishHandle, insertedRows_length, insertedRows_map_id]
  · intro iid d h
    simp [draftToItem, h]
  · intro n rows h
    simp [publishHandle, h]

/-- Witness for the amended C3: publishing one draft into the empty store
returns the one generated id "1", and a row-count mismatch (2 submitted,
0 reported) is the IncompleteInsert error. -/
theorem C3_publish_amended_witness :
    (publishModel {} [draftE]).1 = Except.ok ["1"] ∧
    publishHandle 2 [] = Except.error "insertErrorNotEnoughEvents" := by
  have h := C3_publish_amended {} [draftE]
  refine ⟨?_, h.2.2.2.2.2 2 [] (by decide)⟩
  rw [h.1]
  rfl

/-- C9: in every record built by fieldMapper (the shape of every WorkItem
returned by fetchNext or find), the `when` field is absent exactly when
the stored "when" column is NULL — absence of `when` in output means
already claimed — `done`, `tid` and `parent` are likewise absent when the
stored value is NULL, and `retryCount` is 0 when the stored value is
NULL. -/
theorem C9_fieldMapper_claim (item : Item) (en qn : Option String) :
    ((fieldMapper item en qn).when = none ↔ item.when = none) ∧
    (item.done = none → (fieldMapper item en qn).done = none) ∧
    (item.tid = none → (fieldMapper item en qn).tid = none) ∧
    (item.parent = none → (fieldMapper item en qn).parent = none) ∧
    (item.retryCount = none → (fieldMapper item en qn).retryCount = 0) := by
  refine ⟨Iff.rfl, ?_, ?_, ?_, ?_⟩ <;> (intro h; simp [fieldMapper, h])

/-- Witness for C9 at a concrete claimed item: its NULL "when" maps to an
absent field and its NULL "retryCount" maps to 0. -/
theorem C9_fieldMapper_claim_witness :
    itemClaimed.when = none ∧ (fieldMapper itemClaimed none none).when = none ∧
    (fieldMapper itemClaimed none none).retryCount = 0 := by
  have h := C9_fieldMapper_claim itemClaimed none none
  exact ⟨rfl, h.1.mpr rfl, h.2.2.2.2 rfl⟩

/-- C4: the claim says criteria without `id` or `when` get an implicit
pending-only filter and the matching items are returned.  On the code the
default-filter path is broken twice: for empty criteria the SQL text
contains the literal word `undefined` (createWhereSQL returns its empty
result under the key `query`, so find reads `.text` as undefined), and
for any criteria on this path the bound "when" value is wrapped in literal
single quotes, which the store cannot cast to a timestamp.  The by-id
path is unaffected, as the claim says. -/
theorem C4_find_default_filter_bug :
    findQueryText [] = "SELECT * FROM \"wrkr_items\" undefined WHERE \"when\" > $1 " ∧
    (findWhere []).2 = ["\x27" ++ newDate00ISO ++ "\x27"] ∧
    (findWhere [("queue_id", "7")]).1 = some "WHERE \"queue_id\" = $1 AND \"when\" > $2 " ∧
    (findWhere [("queue_id", "7")]).2 = ["7", "\x27" ++ newDate00ISO ++ "\x27"] ∧
    findWhere [("id", "5")] = (some "WHERE \"id\" = $1", ["5"]) := by
  exact ⟨rfl, rfl, rfl, rfl, rfl⟩

/-- C7: the claim says a multi-id list becomes a safe parameterized IN
with no string-concatenation.  On the code, find({id:[1,2]}) issues
`WHERE id in ($1)` with the single bound parameter "'1,2'" — the ids
comma-joined and wrapped in literal quotes — which the store cannot match
against integer ids; only the one-element degeneration to a single id
works as claimed. -/
theorem C7_find_multi_id_bug :
    findIdDispatch (IdCriterion.list [1, 2]) =
      Sum.inl ("SELECT * FROM \"wrkr_items\" WHERE id in ($1)", ["\x271,2\x27"]) ∧
    findIdDispatch (IdCriterion.list [1]) = findIdDispatch (IdCriterion.single 1) ∧
    findWhere [("id", "1")] = (some "WHERE \"id\" = $1", ["1"]) := by
  exact ⟨rfl, rfl, rfl⟩

/-- C10: publish hands the RAW `events` argument to convertEventsToQuery,
so a draft object passed directly is iterated property-by-property: the
insert statement gets one VALUES tuple per property and the bound values
are read off the property values (all `undefined` here), differing from
the single correct tuple of publish([e]). -/
theorem C10_publish_single_bug :
    ¬ C10claimAt draftObj ∧
    eachValues draftObj = [JSVal.str "e", JSVal.str "q"] ∧
    (convertEventsToQuery (JSVal.arr [draftObj])).2.head? = some (JSVal.str "e") ∧
    (convertEventsToQuery draftObj).2.head? = some JSVal.undefined := by
  refine ⟨?_, rfl, rfl, rfl⟩
  intro h
  have h3 : some JSVal.undefined = some (JSVal.str "e") := by
    calc some JSVal.undefined = (convertEventsToQuery draftObj).2.head? := rfl
      _ = (convertEventsToQuery (JSVal.arr [draftObj])).2.head? := by rw [h]
      _ = some (JSVal.str "e") := rfl
  exact JSVal.noConfusion (Option.some.inj h3)
